import Mathlib

/-!
Shallow embedding of the node-network-config reconciliation controller and the
IP-configuration state classifier of the azure-container-networking CNS agent,
with theorems checking the natural-language specification against the code.

Go maps (`map[string]V`) are embedded as association lists with insert-or-
overwrite update; all properties proved about them are membership properties,
which are independent of iteration order (unspecified in Go).
-/

namespace AzureCN

/-- Insert-or-overwrite on an association list: the embedding of a Go map
assignment `m[k] = v`. If the key is present its value is replaced, otherwise
the pair is appended. -/
def mapInsert {α : Type} : List (String × α) → String → α → List (String × α)
  | [], k, v => [(k, v)]
  | kv :: rest, k, v => if kv.1 = k then (k, v) :: rest else kv :: mapInsert rest k v

theorem mapInsert_keys {α : Type} (m : List (String × α)) (k : String) (v : α) :
    (mapInsert m k v).map Prod.fst =
      if k ∈ m.map Prod.fst then m.map Prod.fst else m.map Prod.fst ++ [k] := by
  induction m with
  | nil => simp [mapInsert]
  | cons kv rest ih =>
    by_cases h : kv.1 = k
    · simp [mapInsert, h]
    · have hne : ¬ k = kv.1 := fun he => h he.symm
      by_cases hk : k ∈ rest.map Prod.fst
      · simp [mapInsert, h, ih, hk, hne]
      · simp [mapInsert, h, ih, hk, hne]

theorem mapInsert_mem_key {α : Type} (m : List (String × α)) (k : String) (v : α)
    (k' : String) :
    k' ∈ (mapInsert m k v).map Prod.fst ↔ k' = k ∨ k' ∈ m.map Prod.fst := by
  rw [mapInsert_keys]
  by_cases hk : k ∈ m.map Prod.fst
  · rw [if_pos hk]
    constructor
    · exact Or.inr
    · rintro (he | he)
      · subst he
        exact hk
      · exact he
  · rw [if_neg hk, List.mem_append, List.mem_singleton]
    exact or_comm

theorem mapInsert_mem {α : Type} (m : List (String × α)) (k : String) (v : α)
    (k' : String) (w : α) (hmem : (k', w) ∈ mapInsert m k v) :
    (k' = k ∧ w = v) ∨ (k', w) ∈ m := by
  induction m with
  | nil =>
    simp [mapInsert] at hmem
    exact Or.inl hmem
  | cons kv rest ih =>
    by_cases h : kv.1 = k
    · simp [mapInsert, h] at hmem
      rcases hmem with ⟨h1, h2⟩ | h2
      · exact Or.inl ⟨h1, h2⟩
      · exact Or.inr (List.mem_cons_of_mem _ h2)
    · simp [mapInsert, h] at hmem
      rcases hmem with h2 | h2
      · exact Or.inr (by simp [h2])
      · rcases ih h2 with h3 | h3
        · exact Or.inl h3
        · exact Or.inr (List.mem_cons_of_mem _ h3)

theorem mapInsert_keys_nodup {α : Type} (m : List (String × α)) (k : String) (v : α)
    (hnd : (m.map Prod.fst).Nodup) : ((mapInsert m k v).map Prod.fst).Nodup := by
  rw [mapInsert_keys]
  by_cases hk : k ∈ m.map Prod.fst
  · simpa [hk] using hnd
  · simp only [hk, if_false]
    exact List.Nodup.append hnd (List.nodup_singleton k) (by simpa using hk)

namespace cns

/-- Modelled from the spec: the `cns.IPConfigState` string type; the `cns`
package itself is not among the provided sources. -/
abbrev IPConfigState := String

/-- Modelled from the spec: the Allocated lifecycle state. -/
def Allocated : IPConfigState := "Allocated"

/-- Modelled from the spec: the Available lifecycle state. -/
def Available : IPConfigState := "Available"

/-- Modelled from the spec: the PendingProgramming lifecycle state. -/
def PendingProgramming : IPConfigState := "PendingProgramming"

/-- Modelled from the spec: the PendingRelease lifecycle state. -/
def PendingRelease : IPConfigState := "PendingRelease"

/-- Modelled from the spec: `IPConfigurationStatus` is `{ID, State}`, one IP
address's position in its allocation lifecycle. -/
structure IPConfigurationStatus where
  ID : String
  State : IPConfigState
deriving DecidableEq, Repr

/-- Modelled from the spec: `KubernetesPodInfo` is `{PodName, PodNamespace}`,
keyed by pod IP in the pod-info map. -/
structure KubernetesPodInfo where
  PodName : String
  PodNamespace : String
deriving DecidableEq, Repr

end cns

namespace filter

/-- `IPConfigStatePredicate` from cns/filter: a boolean predicate over an
`IPConfigurationStatus`. -/
def IPConfigStatePredicate := cns.IPConfigurationStatus → Bool

/-- `ipConfigStatePredicate` from cns/filter: the predicate comparing
`ipconfig.State` to the given state. -/
def ipConfigStatePredicate (test : cns.IPConfigState) : IPConfigStatePredicate :=
  fun ipconfig => decide (ipconfig.State = test)

/-- The `filters` map literal from cns/filter, embedded as a lookup function:
it has exactly the four recognized states as keys. -/
def filters (state : cns.IPConfigState) : Option IPConfigStatePredicate :=
  if state = cns.Allocated then some (ipConfigStatePredicate cns.Allocated)
  else if state = cns.Available then some (ipConfigStatePredicate cns.Available)
  else if state = cns.PendingProgramming then some (ipConfigStatePredicate cns.PendingProgramming)
  else if state = cns.PendingRelease then some (ipConfigStatePredicate cns.PendingRelease)
  else none

/-- `matchesAnyIPConfigState` from cns/filter: the range loop returning true
as soon as one predicate matches. -/
def matchesAnyIPConfigState (status : cns.IPConfigurationStatus) :
    List IPConfigStatePredicate → Bool
  | [] => false
  | p :: rest => if p status then true else matchesAnyIPConfigState status rest

/-- `MatchAnyIPConfigState` from cns/filter: short-circuits to the empty slice
when the predicate list or the input map is empty, otherwise appends every
value of the map matched by some predicate. -/
def MatchAnyIPConfigState (inMap : List (String × cns.IPConfigurationStatus))
    (predicates : List IPConfigStatePredicate) : List cns.IPConfigurationStatus :=
  if predicates.length = 0 ∨ inMap.length = 0 then []
  else
    inMap.foldl
      (fun out kv => if matchesAnyIPConfigState kv.2 predicates then out ++ [kv.2] else out) []

/-- `PredicatesForStates` from cns/filter: looks each state up in `filters`
and appends the predicate when found, skipping unknown states. -/
def PredicatesForStates : List cns.IPConfigState → List IPConfigStatePredicate
  | [] => []
  | state :: rest =>
    match filters state with
    | some f => f :: PredicatesForStates rest
    | none => PredicatesForStates rest

theorem matchesAnyIPConfigState_iff (status : cns.IPConfigurationStatus)
    (predicates : List IPConfigStatePredicate) :
    matchesAnyIPConfigState status predicates = true ↔
      ∃ p ∈ predicates, p status = true := by
  induction predicates with
  | nil => simp [matchesAnyIPConfigState]
  | cons p rest ih =>
    by_cases h : p status
    · simp [matchesAnyIPConfigState, h]
    · have hstep : matchesAnyIPConfigState status (p :: rest) =
          matchesAnyIPConfigState status rest := by
        simp [matchesAnyIPConfigState, h]
      rw [hstep, ih]
      constructor
      · rintro ⟨q, hq, hqs⟩
        exact ⟨q, List.mem_cons_of_mem _ hq, hqs⟩
      · rintro ⟨q, hq, hqs⟩
        rcases List.mem_cons.mp hq with he | hm
        · subst he
          exact absurd hqs h
        · exact ⟨q, hm, hqs⟩

theorem matchAny_foldl_mem (predicates : List IPConfigStatePredicate)
    (l : List (String × cns.IPConfigurationStatus)) (acc : List cns.IPConfigurationStatus)
    (v : cns.IPConfigurationStatus) :
    v ∈ l.foldl
        (fun out kv => if matchesAnyIPConfigState kv.2 predicates then out ++ [kv.2] else out) acc ↔
      v ∈ acc ∨ ((∃ k, (k, v) ∈ l) ∧ matchesAnyIPConfigState v predicates = true) := by
  induction l generalizing acc with
  | nil => simp
  | cons kv rest ih =>
    by_cases h : matchesAnyIPConfigState kv.2 predicates
    · rw [List.foldl_cons, if_pos h, ih]
      constructor
      · rintro (hv | hv)
        · rcases List.mem_append.mp hv with hv | hv
          · exact Or.inl hv
          · simp at hv
            subst hv
            exact Or.inr ⟨⟨kv.1, by simp⟩, h⟩
        · rcases hv with ⟨⟨k, hk⟩, hm⟩
          exact Or.inr ⟨⟨k, by simp [hk]⟩, hm⟩
      · rintro (hv | ⟨⟨k, hk⟩, hm⟩)
        · exact Or.inl (List.mem_append.mpr (Or.inl hv))
        · rcases List.mem_cons.mp hk with hk | hk
          · have hv : kv.2 = v := by rw [← hk]
            subst hv
            exact Or.inl (List.mem_append.mpr (Or.inr (by simp)))
          · exact Or.inr ⟨⟨k, hk⟩, hm⟩
    · rw [List.foldl_cons, if_neg h, ih]
      constructor
      · rintro (hv | ⟨⟨k, hk⟩, hm⟩)
        · exact Or.inl hv
        · exact Or.inr ⟨⟨k, by simp [hk]⟩, hm⟩
      · rintro (hv | ⟨⟨k, hk⟩, hm⟩)
        · exact Or.inl hv
        · rcases List.mem_cons.mp hk with hk | hk
          · exfalso
            have hv : kv.2 = v := by rw [← hk]
            rw [hv] at h
            exact h hm
          · exact Or.inr ⟨⟨k, hk⟩, hm⟩

/-- C1: for every map from configuration-id to `IPConfigurationStatus` and
every predicate list, `MatchAnyIPConfigState` returns exactly those values of
the map satisfying at least one predicate (as a set; order unspecified), and
returns the empty result whenever the predicate list or the map is empty —
it is a total function, so no error is possible. -/
theorem MatchAnyIPConfigState_classifies :
    ∀ (m : List (String × cns.IPConfigurationStatus))
      (predicates : List IPConfigStatePredicate),
      (∀ v, v ∈ MatchAnyIPConfigState m predicates ↔
          (∃ k, (k, v) ∈ m) ∧ ∃ p ∈ predicates, p v = true) ∧
      MatchAnyIPConfigState m [] = [] ∧
      MatchAnyIPConfigState [] predicates = [] := by
  intro m predicates
  refine ⟨?_, by simp [MatchAnyIPConfigState], by simp [MatchAnyIPConfigState]⟩
  intro v
  unfold MatchAnyIPConfigState
  by_cases hc : predicates.length = 0 ∨ m.length = 0
  · rw [if_pos hc]
    simp only [List.not_mem_nil, false_iff]
    rcases hc with hc | hc
    · rw [List.length_eq_zero] at hc
      subst hc
      simp
    · rw [List.length_eq_zero] at hc
      subst hc
      simp
  · rw [if_neg hc, matchAny_foldl_mem]
    simp only [List.not_mem_nil, false_or]
    rw [matchesAnyIPConfigState_iff]

/-- C6: `PredicatesForStates` maps each recognized state in its input to the
corresponding predicate and silently drops every unrecognized state; the
input `[Allocated, "bogus"]` yields exactly one predicate, and that predicate
set matches a status exactly when its state is Allocated. -/
theorem PredicatesForStates_drops_unknown :
    (∀ states, PredicatesForStates states = states.filterMap filters) ∧
    (PredicatesForStates [cns.Allocated, "bogus"]).length = 1 ∧
    (∀ st, matchesAnyIPConfigState st (PredicatesForStates [cns.Allocated, "bogus"]) =
        decide (st.State = cns.Allocated)) := by
  have hlist : PredicatesForStates [cns.Allocated, "bogus"] =
      [ipConfigStatePredicate cns.Allocated] := by
    simp [PredicatesForStates, filters, cns.Allocated, cns.Available,
      cns.PendingProgramming, cns.PendingRelease]
  refine ⟨?_, ?_, ?_⟩
  · intro states
    induction states with
    | nil => rfl
    | cons s rest ih =>
      unfold PredicatesForStates
      cases h : filters s <;> simp [List.filterMap_cons, h, ih]
  · rw [hlist]
    rfl
  · intro st
    rw [hlist]
    by_cases h : st.State = cns.Allocated <;>
      simp [matchesAnyIPConfigState, ipConfigStatePredicate, h]

end filter

namespace kubecontroller

/-- Modelled from the spec: the `metav1.CauseType` value signalling an
unexpected server response among a structured API error's causes. -/
def CauseTypeUnexpectedServerResponse : String := "UnexpectedServerResponse"

/-- Modelled from the spec: the `metav1.StatusReason` value for a not-found
classification. -/
def StatusReasonNotFound : String := "NotFound"

/-- One entry of a structured API status error's `Details.Causes` list; only
the `Type` field (here `causeType`, since `Type` is reserved in Lean) is
inspected by the code under study. -/
structure StatusCause where
  causeType : String
deriving DecidableEq, Repr

/-- The `Details` of a structured API status error. -/
structure StatusDetails where
  causes : List StatusCause
deriving DecidableEq, Repr

/-- The `ErrStatus` payload of a `*apierrors.StatusError`: a reason string and
structured details. -/
structure K8sStatus where
  reason : String
  details : StatusDetails
deriving DecidableEq, Repr

/-- `*apierrors.StatusError`: a structured API status error. -/
structure StatusError where
  errStatus : K8sStatus
deriving DecidableEq, Repr

/-- A Go `error` value as consumed by this controller: either a structured
API status error or any other (non-status) error; `Option GoError` with
`none` embeds the nil error. -/
inductive GoError
  | statusErr (e : StatusError)
  | otherErr (msg : String)
deriving DecidableEq, Repr

/-- Modelled from the spec: `apierrors.ReasonForError` — the reason of a
structured status error, empty otherwise (the apimachinery library is not
among the provided sources). -/
def ReasonForError : Option GoError → String
  | some (GoError.statusErr e) => e.errStatus.reason
  | _ => ""

/-- Modelled from the spec: `apierrors.IsNotFound` — the not-found
classification of an error, decided by its status reason. -/
def IsNotFound (err : Option GoError) : Bool :=
  ReasonForError err = StatusReasonNotFound

/-- Modelled from the spec: `client.IgnoreNotFound` from controller-runtime —
drops an error exactly when it classifies as not-found. -/
def IgnoreNotFound (err : Option GoError) : Option GoError :=
  match err with
  | none => none
  | some e => if IsNotFound (some e) then none else some e

/-- `isNotDefined` from the request controller: false for nil and non-status
errors; for a status error, scans the causes for an unexpected-server-response
cause combined with the not-found classification of the whole error. -/
def isNotDefined (err : Option GoError) : Bool :=
  match err with
  | none => false
  | some (GoError.otherErr _) => false
  | some (GoError.statusErr statusError) =>
    if statusError.errStatus.details.causes.length > 0 then
      statusError.errStatus.details.causes.any
        (fun cause =>
          cause.causeType = CauseTypeUnexpectedServerResponse &&
            IsNotFound (some (GoError.statusErr statusError)))
    else false

/-- C8: `isNotDefined err` is true exactly when `err` is a structured status
error carrying an unexpected-server-response cause among its details and
classifying as not-found; it is false for the nil error, for non-status
errors, and for a generic not-found status error without such a cause. -/
theorem isNotDefined_characterization :
    (∀ err, isNotDefined err = true ↔
        ∃ statusError, err = some (GoError.statusErr statusError) ∧
          (∃ cause ∈ statusError.errStatus.details.causes,
            cause.causeType = CauseTypeUnexpectedServerResponse) ∧
          IsNotFound err = true) ∧
    isNotDefined none = false ∧
    (∀ msg, isNotDefined (some (GoError.otherErr msg)) = false) ∧
    isNotDefined (some (GoError.statusErr ⟨⟨StatusReasonNotFound, ⟨[]⟩⟩⟩)) = false := by
  refine ⟨?_, rfl, fun msg => rfl, rfl⟩
  intro err
  match err with
  | none => simp [isNotDefined]
  | some (GoError.otherErr msg) => simp [isNotDefined]
  | some (GoError.statusErr statusError) =>
    simp only [isNotDefined]
    by_cases hlen : statusError.errStatus.details.causes.length > 0
    · rw [if_pos hlen, List.any_eq_true]
      constructor
      · rintro ⟨cause, hc, hp⟩
        rw [Bool.and_eq_true] at hp
        exact ⟨statusError, rfl, ⟨cause, hc, by simpa using hp.1⟩, hp.2⟩
      · rintro ⟨se, hse, ⟨cause, hc, hct⟩, hnf⟩
        cases hse
        exact ⟨cause, hc, by simp [hct, hnf]⟩
    · rw [if_neg hlen]
      constructor
      · intro h
        exact absurd h Bool.false_ne_true
      · rintro ⟨se, hse, ⟨cause, hc, _⟩, _⟩
        cases hse
        exact absurd (List.length_pos_of_mem hc) hlen

/-- Modelled from the spec: the `Scaler` object of a NodeNetworkConfig status
(the CRD api package is not among the provided sources); its fields are only
forwarded by the controller, never inspected, so one opaque-to-the-controller
payload field suffices for the embedding. -/
structure Scaler where
  batchSize : Int
deriving DecidableEq, Repr

/-- Modelled from the spec: the NodeNetworkConfig `Spec` (desired state, e.g.
requested IP count); only forwarded by the code under study. -/
structure NodeNetworkConfigSpec where
  requestedIPCount : Int
deriving DecidableEq, Repr

/-- Modelled from the spec: one `NetworkContainer` entry of the status; the
controller under study only counts them, so an identifier field suffices. -/
structure NetworkContainer where
  id : String
deriving DecidableEq, Repr

/-- Modelled from the spec: the NodeNetworkConfig `Status`, a list of network
containers plus a scaler. -/
structure NodeNetworkConfigStatus where
  scaler : Scaler
  networkContainers : List NetworkContainer
deriving DecidableEq, Repr

/-- Modelled from the spec: the NodeNetworkConfig custom resource, spec plus
status. -/
structure NodeNetworkConfig where
  spec : NodeNetworkConfigSpec
  status : NodeNetworkConfigStatus
deriving DecidableEq, Repr

/-- Modelled from the spec: the fields of a `corev1.Pod` read by the
controller — name, namespace, the host-network flag and the pod IP. -/
structure Pod where
  name : String
  podNamespace : String
  hostNetwork : Bool
  podIP : String
deriving DecidableEq, Repr

/-- The pod loop of `initCNS`: builds the pod-IP map from the pod list,
inserting `{PodName, PodNamespace}` keyed by pod IP for every pod that is not
on the host network. -/
def buildPodInfoByIP : List Pod → List (String × cns.KubernetesPodInfo) →
    List (String × cns.KubernetesPodInfo)
  | [], acc => acc
  | pod :: rest, acc =>
    buildPodInfoByIP rest
      (if pod.hostNetwork then acc else mapInsert acc pod.podIP ⟨pod.name, pod.podNamespace⟩)

theorem buildPodInfoByIP_keys (pods : List Pod)
    (acc : List (String × cns.KubernetesPodInfo)) (ip : String) :
    ip ∈ (buildPodInfoByIP pods acc).map Prod.fst ↔
      ip ∈ acc.map Prod.fst ∨
        ∃ pod ∈ pods, pod.hostNetwork = false ∧ pod.podIP = ip := by
  induction pods generalizing acc with
  | nil => simp [buildPodInfoByIP]
  | cons pod rest ih =>
    by_cases h : pod.hostNetwork
    · rw [buildPodInfoByIP, if_pos h, ih]
      constructor
      · rintro (hm | ⟨q, hq, hqs⟩)
        · exact Or.inl hm
        · exact Or.inr ⟨q, List.mem_cons_of_mem _ hq, hqs⟩
      · rintro (hm | ⟨q, hq, hn, hip⟩)
        · exact Or.inl hm
        · rcases List.mem_cons.mp hq with he | hq
          · subst he
            rw [h] at hn
            cases hn
          · exact Or.inr ⟨q, hq, hn, hip⟩
    · rw [buildPodInfoByIP, if_neg h, ih, mapInsert_mem_key]
      rw [Bool.not_eq_true] at h
      constructor
      · rintro ((he | hm) | ⟨q, hq, hn, hip⟩)
        · exact Or.inr ⟨pod, by simp, h, he.symm⟩
        · exact Or.inl hm
        · exact Or.inr ⟨q, List.mem_cons_of_mem _ hq, hn, hip⟩
      · rintro (hm | ⟨q, hq, hn, hip⟩)
        · exact Or.inl (Or.inr hm)
        · rcases List.mem_cons.mp hq with he | hq
          · subst he
            exact Or.inl (Or.inl hip.symm)
          · exact Or.inr ⟨q, hq, hn, hip⟩

theorem buildPodInfoByIP_mem (pods : List Pod)
    (acc : List (String × cns.KubernetesPodInfo)) (ip : String)
    (pi : cns.KubernetesPodInfo) (hmem : (ip, pi) ∈ buildPodInfoByIP pods acc) :
    (ip, pi) ∈ acc ∨
      ∃ pod ∈ pods, pod.hostNetwork = false ∧ pod.podIP = ip ∧
        pi = ⟨pod.name, pod.podNamespace⟩ := by
  induction pods generalizing acc with
  | nil => exact Or.inl hmem
  | cons pod rest ih =>
    by_cases h : pod.hostNetwork
    · rw [buildPodInfoByIP, if_pos h] at hmem
      rcases ih _ hmem with hm | ⟨q, hq, hqs⟩
      · exact Or.inl hm
      · exact Or.inr ⟨q, List.mem_cons_of_mem _ hq, hqs⟩
    · rw [buildPodInfoByIP, if_neg h] at hmem
      rcases ih _ hmem with hm | ⟨q, hq, hqs⟩
      · rcases mapInsert_mem _ _ _ _ _ hm with ⟨hip, hpi⟩ | hm
        · exact Or.inr ⟨pod, by simp, by simpa using h, hip.symm, hpi⟩
        · exact Or.inl hm
      · exact Or.inr ⟨q, List.mem_cons_of_mem _ hq, hqs⟩

/-- C7: the pod-IP map built during cold-start has an entry keyed by pod IP
for exactly the pods whose host-network flag is false, each entry holding that
pod's name and namespace; concretely, for a host-network pod at 10.0.0.5 and a
non-host-network pod at 10.244.1.2 the map has only the 10.244.1.2 entry. -/
theorem podInfoByIP_excludes_hostNetwork :
    (∀ pods ip,
        ip ∈ (buildPodInfoByIP pods []).map Prod.fst ↔
          ∃ pod ∈ pods, pod.hostNetwork = false ∧ pod.podIP = ip) ∧
    (∀ pods ip pi, (ip, pi) ∈ buildPodInfoByIP pods [] →
        ∃ pod ∈ pods, pod.hostNetwork = false ∧ pod.podIP = ip ∧
          pi = ⟨pod.name, pod.podNamespace⟩) ∧
    buildPodInfoByIP
        [⟨"host-pod", "ns1", true, "10.0.0.5"⟩, ⟨"pod-b", "ns2", false, "10.244.1.2"⟩] [] =
      [("10.244.1.2", ⟨"pod-b", "ns2"⟩)] := by
  refine ⟨?_, ?_, by decide⟩
  · intro pods ip
    rw [buildPodInfoByIP_keys]
    simp
  · intro pods ip pi hmem
    rcases buildPodInfoByIP_mem pods [] ip pi hmem with hm | hm
    · cases hm
    · exact hm

/-- Witness for C7: the provenance part, applied at the concrete two-pod
list of the claim. -/
theorem podInfoByIP_excludes_hostNetwork_witness :
    ∃ pod ∈ ([⟨"host-pod", "ns1", true, "10.0.0.5"⟩,
        ⟨"pod-b", "ns2", false, "10.244.1.2"⟩] : List Pod),
      pod.hostNetwork = false ∧ pod.podIP = "10.244.1.2" ∧
        (⟨"pod-b", "ns2"⟩ : cns.KubernetesPodInfo) = ⟨pod.name, pod.podNamespace⟩ :=
  podInfoByIP_excludes_hostNetwork.2.1
    [⟨"host-pod", "ns1", true, "10.0.0.5"⟩, ⟨"pod-b", "ns2", false, "10.244.1.2"⟩]
    "10.244.1.2" ⟨"pod-b", "ns2"⟩ (by decide)

/-- Modelled from the spec: `cns.CreateNetworkContainerRequest`, the local
service's network-container creation request produced by the translator; the
controller under study only passes it along, so an identifier field
suffices. -/
structure CreateNetworkContainerRequest where
  networkContainerid : String
deriving DecidableEq, Repr

/-- One observable interaction of `initCNS` with its collaborators: a
`ReconcileNCState` push to the CNS client (with the request, pod map, scaler
and spec arguments), a direct pod listing, or a status translation. -/
inductive InitEffect
  | reconcileNCState (ncRequest : Option CreateNetworkContainerRequest)
      (podInfoByIP : Option (List (String × cns.KubernetesPodInfo)))
      (scaler : Scaler) (spec : NodeNetworkConfigSpec)
  | listPods
  | translateStatus
deriving DecidableEq, Repr

/-- The collaborators of `initCNS`, embedded as the results they would
return: the direct CRD read, the direct pod listing, the status-to-request
translation (`CRDStatusToNCRequest`, whose body lives outside the provided
sources and is therefore an arbitrary function here), and the result of the
CNS client's `ReconcileNCState`. -/
structure InitEnv where
  directGetResult : Except GoError NodeNetworkConfig
  listPodsResult : Except GoError (List Pod)
  translateResult : NodeNetworkConfigStatus → Except GoError CreateNetworkContainerRequest
  reconcileResult : Option GoError

/-- `getNodeNetConfigDirect` from the request controller: on a direct-client
error it returns the pair `(nil, err)`, otherwise `(config, nil)`. -/
def getNodeNetConfigDirect (env : InitEnv) :
    Option NodeNetworkConfig × Option GoError :=
  match env.directGetResult with
  | Except.error e => (none, some e)
  | Except.ok nodeNetConfig => (some nodeNetConfig, none)

/-- How a run of `initCNS` ends: a process exit (`os.Exit(1)`), a nil-pointer
dereference (a Go panic), or a normal return carrying the Go error value. -/
inductive InitResult
  | exitProcess
  | nilDereference
  | returns (err : Option GoError)
deriving DecidableEq, Repr

/-- `initCNS` from the request controller, as a function from its
collaborators' results to the list of interactions it performs plus how it
ends. The structure mirrors the source: error branch with the not-defined
check, the `nodeNetConfig == nil` check, the `IgnoreNotFound` check and the
catch-all; success branch with the zero-containers short-circuit, the status
translation, the pod listing and the pod-map construction. -/
def initCNS (env : InitEnv) : List InitEffect × InitResult :=
  match getNodeNetConfigDirect env with
  | (nodeNetConfig, some err) =>
    if isNotDefined (some err) then ([], InitResult.exitProcess)
    else
      match nodeNetConfig with
      | none => ([], InitResult.returns none)
      | some nodeNetConfig =>
        if IgnoreNotFound (some err) = none then
          ([InitEffect.reconcileNCState none none nodeNetConfig.status.scaler
              nodeNetConfig.spec],
            InitResult.returns env.reconcileResult)
        else ([], InitResult.returns (some err))
  | (nodeNetConfig, none) =>
    match nodeNetConfig with
    | none => ([], InitResult.nilDereference)
    | some nodeNetConfig =>
      if nodeNetConfig.status.networkContainers.length = 0 then
        ([InitEffect.reconcileNCState none none nodeNetConfig.status.scaler
            nodeNetConfig.spec],
          InitResult.returns env.reconcileResult)
      else
        match env.translateResult nodeNetConfig.status with
        | Except.error e => ([InitEffect.translateStatus], InitResult.returns (some e))
        | Except.ok ncRequest =>
          match env.listPodsResult with
          | Except.error e =>
            ([InitEffect.translateStatus, InitEffect.listPods],
              InitResult.returns (some e))
          | Except.ok pods =>
            ([InitEffect.translateStatus, InitEffect.listPods,
                InitEffect.reconcileNCState (some ncRequest)
                  (if pods.length ≠ 0 then some (buildPodInfoByIP pods []) else none)
                  nodeNetConfig.status.scaler nodeNetConfig.spec],
              InitResult.returns env.reconcileResult)

/-- The mutex-guarded controller booleans of the request controller. -/
structure ControllerState where
  initialized : Bool
  Started : Bool
deriving DecidableEq, Repr

/-- `InitRequestController` from the request controller: runs `initCNS` under
the lock, propagates its error leaving the state untouched, and sets
`initialized` only when `initCNS` returned nil. -/
def InitRequestController (env : InitEnv) (rc : ControllerState) :
    ControllerState × List InitEffect × InitResult :=
  match initCNS env with
  | (events, InitResult.returns none) =>
    ({ rc with initialized := true }, events, InitResult.returns none)
  | (events, other) => (rc, events, other)

/-- A plain not-found status error: the kind exists, the instance does not
(no unexpected-server-response cause among the details). -/
def plainNotFoundErr : GoError :=
  GoError.statusErr ⟨⟨StatusReasonNotFound, ⟨[]⟩⟩⟩

/-- An environment whose direct CRD read fails with a plain not-found error. -/
def envNotFound : InitEnv where
  directGetResult := Except.error plainNotFoundErr
  listPodsResult := Except.ok []
  translateResult := fun _ => Except.error (GoError.otherErr "unused")
  reconcileResult := none

/-- C2 (failing input): when the direct read fails with a plain not-found
error, `initCNS` performs no interaction at all — in particular it never
invokes `ReconcileNCState` with the node's scaler and spec — and returns nil:
`getNodeNetConfigDirect` returns a nil config on every error, so the
`nodeNetConfig == nil` early return always precedes the branch that would
push the nil request, leaving that branch dead. -/
theorem initCNS_notFound_skips_reconcile :
    initCNS envNotFound = ([], InitResult.returns none) ∧
    IsNotFound (some plainNotFoundErr) = true ∧
    isNotDefined (some plainNotFoundErr) = false := by
  refine ⟨?_, by decide, by decide⟩
  rfl

/-- An environment whose direct CRD read fails with a transport error that is
neither a not-defined classification nor a not-found. -/
def envTransportError : InitEnv where
  directGetResult := Except.error (GoError.otherErr "connection refused")
  listPodsResult := Except.ok []
  translateResult := fun _ => Except.error (GoError.otherErr "unused")
  reconcileResult := none

/-- C3 (failing input): for a direct-read error that is neither not-defined
nor not-found, `InitRequestController` does not propagate the error — the
always-taken `nodeNetConfig == nil` early return makes `initCNS` return nil —
and therefore sets `initialized` to true. -/
theorem initRequestController_swallows_other_errors :
    InitRequestController envTransportError ⟨false, false⟩ =
      (⟨true, false⟩, [], InitResult.returns none) ∧
    isNotDefined (some (GoError.otherErr "connection refused")) = false ∧
    IsNotFound (some (GoError.otherErr "connection refused")) = false := by
  refine ⟨?_, by decide, by decide⟩
  rfl

/-- C9: when the direct read succeeds and the status holds zero network
containers, `initCNS` performs exactly one interaction — a `ReconcileNCState`
push with a nil request, a nil pod map, and the resource's scaler and spec —
and returns that call's result, never listing pods nor translating the
status. -/
theorem initCNS_zero_containers (env : InitEnv) (nodeNetConfig : NodeNetworkConfig)
    (hget : env.directGetResult = Except.ok nodeNetConfig)
    (hzero : nodeNetConfig.status.networkContainers = []) :
    initCNS env =
      ([InitEffect.reconcileNCState none none nodeNetConfig.status.scaler
          nodeNetConfig.spec],
        InitResult.returns env.reconcileResult) := by
  unfold initCNS getNodeNetConfigDirect
  rw [hget]
  simp [hzero]

/-- Witness for C9 at a concrete environment and resource. -/
theorem initCNS_zero_containers_witness :
    initCNS ⟨Except.ok ⟨⟨7⟩, ⟨⟨3⟩, []⟩⟩, Except.ok [],
        fun _ => Except.error (GoError.otherErr "unused"), none⟩ =
      ([InitEffect.reconcileNCState none none ⟨3⟩ ⟨7⟩], InitResult.returns none) :=
  initCNS_zero_containers _ ⟨⟨7⟩, ⟨⟨3⟩, []⟩⟩ rfl rfl

/-- An observable snapshot of the controller during `StartRequestController`:
the two guarded booleans plus whether the watch manager's blocking run loop
has begun running. -/
structure ObservableState where
  initialized : Bool
  Started : Bool
  managerRunning : Bool
deriving DecidableEq, Repr

/-- `IsStarted` from the request controller: reads the `Started` boolean
under the lock. -/
def IsStarted (s : ObservableState) : Bool :=
  s.Started

/-- How `StartRequestController` ends: the not-initialized error return, a
fatal process exit (CRD kind not defined while starting the manager), or a
normal return of the manager's error value. -/
inductive StartOutcome
  | errNotInitialized
  | exitProcess
  | returns (err : Option GoError)
deriving DecidableEq, Repr

/-- `StartRequestController` from the request controller, as the sequence of
observable states it passes through plus its outcome, parameterized by the
result the watch manager's run loop would eventually return. Mirroring the
source: if `initialized` is false it returns an error having changed nothing;
otherwise it first sets `Started` to true (releasing the lock), and only then
starts the manager's blocking run loop. -/
def StartRequestController (mgrResult : Option GoError) (s : ObservableState) :
    List ObservableState × StartOutcome :=
  if s.initialized = false then ([s], StartOutcome.errNotInitialized)
  else
    let afterStarted : ObservableState := { s with Started := true }
    let afterMgrStart : ObservableState := { afterStarted with managerRunning := true }
    match mgrResult with
    | some e =>
      if isNotDefined (some e) then
        ([s, afterStarted, afterMgrStart], StartOutcome.exitProcess)
      else ([s, afterStarted, afterMgrStart], StartOutcome.returns (some e))
    | none => ([s, afterStarted, afterMgrStart], StartOutcome.returns none)

/-- The run of `StartRequestController` from an initialized state: the trace
is always `initial, Started set, manager running`, and the outcome is never
the not-initialized error. -/
theorem StartRequestController_run (mgrResult : Option GoError)
    (s : ObservableState) (h : s.initialized = true) :
    (StartRequestController mgrResult s).1 =
        [s, { s with Started := true }, { s with Started := true, managerRunning := true }] ∧
      (StartRequestController mgrResult s).2 ≠ StartOutcome.errNotInitialized := by
  unfold StartRequestController
  rw [if_neg (by simp [h])]
  cases mgrResult with
  | none => simp
  | some e => by_cases hd : isNotDefined (some e) <;> simp [hd]

/-- C4: called with `initialized` false, `StartRequestController` returns an
error without passing through any state in which the manager runs; once
`initialized` is true it proceeds: some observable state of its run has the
manager running, and the outcome is not the not-initialized error. -/
theorem startRequestController_requires_initialized
    (mgrResult : Option GoError) (s : ObservableState) :
    (s.initialized = false →
      StartRequestController mgrResult s = ([s], StartOutcome.errNotInitialized) ∧
        (s.managerRunning = false →
          ∀ st ∈ (StartRequestController mgrResult s).1, st.managerRunning = false)) ∧
    (s.initialized = true →
      (∃ st ∈ (StartRequestController mgrResult s).1, st.managerRunning = true) ∧
        (StartRequestController mgrResult s).2 ≠ StartOutcome.errNotInitialized) := by
  constructor
  · intro h
    have heq : StartRequestController mgrResult s = ([s], StartOutcome.errNotInitialized) := by
      simp [StartRequestController, h]
    refine ⟨heq, ?_⟩
    intro hmr st hst
    rw [heq] at hst
    simp at hst
    subst hst
    exact hmr
  · intro h
    obtain ⟨htr, hout⟩ := StartRequestController_run mgrResult s h
    refine ⟨⟨{ s with Started := true, managerRunning := true }, ?_, rfl⟩, hout⟩
    rw [htr]
    simp

/-- Witness for C4: a not-yet-initialized controller is refused and never
runs the manager; an initialized one passes through a running-manager
state. -/
theorem startRequestController_requires_initialized_witness :
    (StartRequestController none ⟨false, false, false⟩ =
        ([⟨false, false, false⟩], StartOutcome.errNotInitialized) ∧
      (∀ st ∈ (StartRequestController none ⟨false, false, false⟩).1,
        st.managerRunning = false)) ∧
    ((∃ st ∈ (StartRequestController none ⟨true, false, false⟩).1,
        st.managerRunning = true) ∧
      (StartRequestController none ⟨true, false, false⟩).2 ≠
        StartOutcome.errNotInitialized) := by
  refine ⟨?_, ?_⟩
  · have h := (startRequestController_requires_initialized none
      ⟨false, false, false⟩).1 rfl
    exact ⟨h.1, h.2 rfl⟩
  · exact (startRequestController_requires_initialized none ⟨true, false, false⟩).2 rfl

/-- C5 (counterexample): in the execution of `StartRequestController` from an
initialized, not-yet-started state there IS an observable point — the state
`⟨initialized, Started, ¬managerRunning⟩` — where `IsStarted` returns true
while the manager has not yet been started: the code sets `Started` before
handing control to the manager's run loop. -/
theorem started_set_before_manager_counterexample :
    (⟨true, true, false⟩ : ObservableState) ∈
        (StartRequestController none ⟨true, false, false⟩).1 ∧
      IsStarted ⟨true, true, false⟩ = true ∧
      (⟨true, true, false⟩ : ObservableState).managerRunning = false := by
  refine ⟨?_, rfl, rfl⟩
  simp [StartRequestController, IsStarted]

/-- C5 (amended): in every execution of `StartRequestController` from an
initialized state, `Started` is set to true strictly before the watch
manager's run loop begins: there is an observable point where `IsStarted`
returns true while the manager is not yet running, and every state with the
manager running also has `Started` true. -/
theorem started_set_before_manager (mgrResult : Option GoError)
    (s : ObservableState) (hinit : s.initialized = true)
    (hmr : s.managerRunning = false) :
    (∃ st ∈ (StartRequestController mgrResult s).1,
      IsStarted st = true ∧ st.managerRunning = false) ∧
    (∀ st ∈ (StartRequestController mgrResult s).1,
      st.managerRunning = true → IsStarted st = true) := by
  obtain ⟨htr, _⟩ := StartRequestController_run mgrResult s hinit
  constructor
  · refine ⟨{ s with Started := true }, ?_, rfl, hmr⟩
    rw [htr]
    simp
  · intro st hst hmgr
    rw [htr] at hst
    simp at hst
    rcases hst with h | h | h
    · subst h
      exact absurd hmgr (by simp [hmr])
    · subst h
      rfl
    · subst h
      rfl

/-- Witness for the amended C5 at a concrete initialized state. -/
theorem started_set_before_manager_witness :
    (∃ st ∈ (StartRequestController none ⟨true, false, false⟩).1,
      IsStarted st = true ∧ st.managerRunning = false) ∧
    (∀ st ∈ (StartRequestController none ⟨true, false, false⟩).1,
      st.managerRunning = true → IsStarted st = true) :=
  started_set_before_manager none ⟨true, false, false⟩ rfl rfl

end kubecontroller

namespace cniapi

/-- `net.IPNet` as consumed by cni/api: only `IP.String()` is read, so the IP
is carried directly in its rendered string form. -/
structure IPNet where
  IP : String
deriving DecidableEq, Repr

/-- `PodNetworkInterfaceInfo` from cni/api. -/
structure PodNetworkInterfaceInfo where
  PodName : String
  PodNamespace : String
  PodEndpointId : String
  ContainerID : String
  IPAddresses : List IPNet
deriving DecidableEq, Repr

/-- `api.State` from cni/api: the CNI state dump, a map of container
interfaces. -/
structure State where
  ContainerInterfaces : List (String × PodNetworkInterfaceInfo)
deriving DecidableEq, Repr

/-- Modelled from the spec: `cns.PodInfo` as built by `cns.NewPodInfo` (the
`cns` package is not among the provided sources); it records the four
constructor arguments. -/
structure PodInfo where
  infraContainerID : String
  interfaceID : String
  podName : String
  podNamespace : String
deriving DecidableEq, Repr

/-- Modelled from the spec: the `cns.NewPodInfo` constructor. -/
def NewPodInfo (infraContainerID interfaceID podName podNamespace : String) : PodInfo :=
  ⟨infraContainerID, interfaceID, podName, podNamespace⟩

/-- The range loop of `cniStateToPodInfoByIP`: inserts one entry per endpoint
keyed by the string form of `IPAddresses[0]`; the unguarded index is embedded
as `none` (a Go panic) when the address list is empty. -/
def cniFold : List (String × PodNetworkInterfaceInfo) → List (String × PodInfo) →
    Option (List (String × PodInfo))
  | [], acc => some acc
  | kv :: rest, acc =>
    match kv.2.IPAddresses with
    | [] => none
    | ipnet :: _ =>
      cniFold rest (mapInsert acc ipnet.IP
        (NewPodInfo "" kv.2.PodEndpointId kv.2.PodName kv.2.PodNamespace))

/-- `cniStateToPodInfoByIP` from cns/cni: converts the CNI state dump into
the pod-info map keyed by first endpoint IP. -/
def cniStateToPodInfoByIP (state : State) : Option (List (String × PodInfo)) :=
  cniFold state.ContainerInterfaces []

theorem cniFold_none (l : List (String × PodNetworkInterfaceInfo))
    (acc : List (String × PodInfo))
    (h : ∃ kv ∈ l, kv.2.IPAddresses = []) : cniFold l acc = none := by
  induction l generalizing acc with
  | nil =>
    rcases h with ⟨kv, hkv, _⟩
    cases hkv
  | cons kv rest ih =>
    cases hip : kv.2.IPAddresses with
    | nil => simp [cniFold, hip]
    | cons ipnet tl =>
      rcases h with ⟨kw, hkw, hempty⟩
      rcases List.mem_cons.mp hkw with he | hm
      · subst he
        rw [hempty] at hip
        cases hip
      · simp only [cniFold, hip]
        exact ih _ ⟨kw, hm, hempty⟩

theorem cniFold_some (l : List (String × PodNetworkInterfaceInfo))
    (acc : List (String × PodInfo))
    (h : ∀ kv ∈ l, kv.2.IPAddresses ≠ []) :
    ∃ m, cniFold l acc = some m ∧
      (∀ k, k ∈ m.map Prod.fst ↔
        k ∈ acc.map Prod.fst ∨
          ∃ kv ∈ l, ∃ ipnet, kv.2.IPAddresses.head? = some ipnet ∧ ipnet.IP = k) ∧
      ((acc.map Prod.fst).Nodup → (m.map Prod.fst).Nodup) := by
  induction l generalizing acc with
  | nil =>
    refine ⟨acc, rfl, ?_, fun hnd => hnd⟩
    intro k
    simp
  | cons kv rest ih =>
    cases hip : kv.2.IPAddresses with
    | nil => exact absurd hip (h kv (List.mem_cons_self _ _))
    | cons ipnet tl =>
      have hrest : ∀ kw ∈ rest, kw.2.IPAddresses ≠ [] :=
        fun kw hm => h kw (List.mem_cons_of_mem _ hm)
      obtain ⟨m, hm, hkeys, hnd⟩ := ih
        (mapInsert acc ipnet.IP
          (NewPodInfo "" kv.2.PodEndpointId kv.2.PodName kv.2.PodNamespace)) hrest
      refine ⟨m, by simp only [cniFold, hip]; exact hm, ?_, ?_⟩
      · intro k
        rw [hkeys k, mapInsert_mem_key]
        constructor
        · rintro ((he | ha) | ⟨kw, hkw, hrest'⟩)
          · exact Or.inr ⟨kv, List.mem_cons_self _ _, ipnet, by simp [hip], he.symm⟩
          · exact Or.inl ha
          · exact Or.inr ⟨kw, List.mem_cons_of_mem _ hkw, hrest'⟩
        · rintro (ha | ⟨kw, hkw, ipnet', hhead, hik⟩)
          · exact Or.inl (Or.inr ha)
          · rcases List.mem_cons.mp hkw with he | hm'
            · subst he
              rw [hip] at hhead
              simp at hhead
              subst hhead
              exact Or.inl (Or.inl hik.symm)
            · exact Or.inr ⟨kw, hm', ipnet', hhead, hik⟩
      · intro hand
        exact hnd (mapInsert_keys_nodup _ _ _ hand)

/-- C10: under the precondition that every container interface in the CNI
state has at least one IP address, `cniStateToPodInfoByIP` returns a map with
one entry per distinct first IP, keyed by the string form of each interface's
first IP address; for a state containing an interface with an empty address
list, the unguarded `IPAddresses[0]` is out of bounds (embedded as `none`, a
panic in the Go source). -/
theorem cniStateToPodInfoByIP_safety (state : State) :
    ((∀ kv ∈ state.ContainerInterfaces, kv.2.IPAddresses ≠ []) →
      ∃ m, cniStateToPodInfoByIP state = some m ∧
        (m.map Prod.fst).Nodup ∧
        (∀ k, k ∈ m.map Prod.fst ↔
          ∃ kv ∈ state.ContainerInterfaces, ∃ ipnet,
            kv.2.IPAddresses.head? = some ipnet ∧ ipnet.IP = k)) ∧
    ((∃ kv ∈ state.ContainerInterfaces, kv.2.IPAddresses = []) →
      cniStateToPodInfoByIP state = none) := by
  constructor
  · intro h
    obtain ⟨m, hm, hkeys, hnd⟩ := cniFold_some state.ContainerInterfaces [] h
    refine ⟨m, hm, hnd (by simp), ?_⟩
    intro k
    rw [hkeys k]
    simp
  · intro h
    exact cniFold_none _ _ h

/-- Witness for C10: a one-interface state with one address yields the
singleton map keyed by that address; a one-interface state with no address
hits the out-of-bounds index. -/
theorem cniStateToPodInfoByIP_safety_witness :
    (∃ m, cniStateToPodInfoByIP
        ⟨[("id1", ⟨"pod-a", "ns-a", "ep-a", "ctr-a", [⟨"10.240.0.9"⟩]⟩)]⟩ = some m ∧
      (m.map Prod.fst).Nodup ∧
      (∀ k, k ∈ m.map Prod.fst ↔
        ∃ kv ∈ ([("id1",
            (⟨"pod-a", "ns-a", "ep-a", "ctr-a", [⟨"10.240.0.9"⟩]⟩ :
              PodNetworkInterfaceInfo))] :
            List (String × PodNetworkInterfaceInfo)), ∃ ipnet,
          kv.2.IPAddresses.head? = some ipnet ∧ ipnet.IP = k)) ∧
    cniStateToPodInfoByIP
        ⟨[("id2", ⟨"pod-b", "ns-b", "ep-b", "ctr-b", []⟩)]⟩ = none :=
  ⟨(cniStateToPodInfoByIP_safety
      ⟨[("id1", ⟨"pod-a", "ns-a", "ep-a", "ctr-a", [⟨"10.240.0.9"⟩]⟩)]⟩).1 (by decide),
    (cniStateToPodInfoByIP_safety
      ⟨[("id2", ⟨"pod-b", "ns-b", "ep-b", "ctr-b", []⟩)]⟩).2
      ⟨("id2", ⟨"pod-b", "ns-b", "ep-b", "ctr-b", []⟩), by decide, rfl⟩⟩

end cniapi

end AzureCN
